import Mathlib

/-!
Shallow embedding of `packages/core/src/scheduler/tool-executor.ts`:
the tool-call executor that drives a single tool call to exactly one
terminal outcome (success, error, cancelled), resolves the cancellation
race at a single checkpoint, classifies faults, and governs oversized
textual output on the success path.

JavaScript machine details kept by the embedding:
- a thrown value is modelled by `Fault` (a `ToolExecutionError`, a plain
  `Error`, or a non-Error value with its string representation);
- asynchronous settlement of the hook-wrapped invocation is modelled by
  an `Except Fault ToolResult` input;
- the two textual `signal.aborted` reads (one after the await settles,
  one inside the catch handler) are two Bool inputs `sigTry`, `sigCatch`;
- optional object fields are `Option`; the JS truthiness test
  `startTime ? now - startTime : undefined` treats `0` as falsy, which
  the embedding reproduces in `durationOf`.
-/

namespace ToolExec

/-- Error taxonomy tags (`ToolErrorType` in the source); only
`UNHANDLED_EXCEPTION` is referred to by name in the executor, the other
members are kept abstract. -/
inductive ToolErrorType where
  | UNHANDLED_EXCEPTION
  | otherType (tag : Nat)
deriving DecidableEq

/-- A thrown JavaScript value as seen by the executor: either a
`ToolExecutionError` (message, optional returnDisplay, optional errorType),
a plain `Error`, or any non-Error value together with its `String(...)`
representation. -/
inductive Fault where
  | toolExecutionError (message : String) (returnDisplay : Option String)
      (errorType : Option ToolErrorType)
  | jsError (message : String)
  | nonError (stringRep : String)
deriving DecidableEq

/-- Result of `getToolErrorMessage`. -/
structure ClassifiedError where
  message : String
  display : String
  errorType : Option ToolErrorType
deriving DecidableEq

/-- Embeds `getToolErrorMessage` (tool-executor.ts lines 59-74). -/
def getToolErrorMessage : Fault → ClassifiedError
  | .toolExecutionError m d t => ⟨m, d.getD m, t⟩
  | .jsError m => ⟨m, m, none⟩
  | .nonError r => ⟨r, r, none⟩

/-- The llmContent payload of a tool result: a string, or some non-string
part structure (kept abstract). -/
inductive LlmContent where
  | text (s : String)
  | nonText (tag : Nat)
deriving DecidableEq

/-- The error descriptor optionally carried by a settled `ToolResult`. -/
structure ToolResultError where
  message : String
  type : Option ToolErrorType
deriving DecidableEq

/-- A settled invocation result (`ToolResult`). -/
structure ToolResult where
  llmContent : LlmContent
  returnDisplay : Option String
  error : Option ToolResultError
deriving DecidableEq

/-- The immutable request carried by every call. -/
structure ToolCallRequestInfo where
  callId : String
  name : String
  prompt_id : String
deriving DecidableEq

/-- The tool capability descriptor: the executor reads only `name` and
`canUpdateOutput`. -/
structure Tool where
  name : String
  canUpdateOutput : Bool
deriving DecidableEq

/-- The invocation bound to the call; the executor only performs the
`instanceof ShellToolInvocation` test on it, kept as a flag. -/
structure Invocation where
  isShellToolInvocation : Bool
deriving DecidableEq

/-- The input `ToolCall` as the executor sees it: `tool` and `invocation`
may be absent (the precondition check), `startTime` is optional, and
`outcome` is an abstract optional classification. -/
structure ToolCall where
  request : ToolCallRequestInfo
  tool : Option Tool
  invocation : Option Invocation
  startTime : Option Int
  outcome : Option Nat
deriving DecidableEq

/-- One element of a `responseParts` list: the error-shaped
`functionResponse` literal the executor builds itself, or a part produced
by the external transcript conversion (kept abstract). -/
inductive ResponsePart where
  | functionResponseError (id : String) (name : String) (errorText : String)
  | otherPart (tag : Nat)
deriving DecidableEq

/-- A terminal response payload (`ToolCallResponseInfo`). -/
structure ToolCallResponseInfo where
  callId : String
  responseParts : List ResponsePart
  resultDisplay : Option String
  error : Option Fault
  errorType : Option ToolErrorType
  outputFile : Option String
  contentLength : Option Int
deriving DecidableEq

/-- The truncation telemetry record (`ToolOutputTruncatedEvent`). -/
structure ToolOutputTruncatedEvent where
  prompt_id : String
  toolName : String
  originalContentLength : Int
  truncatedContentLength : Int
  threshold : Int
  lines : Int
deriving DecidableEq

/-- The configuration values the executor reads from `Config`. -/
structure Config where
  enableToolOutputTruncation : Bool
  truncateToolOutputThreshold : Int
  truncateToolOutputLines : Int
  activeModel : String
  projectTempDir : String
deriving DecidableEq

/-- External collaborators used on the success path, plus the clock:
`save` is `saveTruncatedToolOutput` (artifact store; may fault), `convert`
is `convertToFunctionResponse` (transcript conversion; may fault), `now`
is `Date.now()` at terminal-payload construction time. -/
structure Env where
  save : String → String → String → String → Except Fault String
  convert : String → String → LlmContent → String → Except Fault (List ResponsePart)
  now : Int

/-- Embeds the JS duration pattern `startTime ? now - startTime :
undefined` applied to `const startTime = 'startTime' in call ?
call.startTime : undefined`; note `0` is falsy in JS. -/
def durationOf (startTime : Option Int) (now : Int) : Option Int :=
  match startTime with
  | some t => if t ≠ 0 then some (now - t) else none
  | none => none

/-- Modelled from the spec: `SHELL_TOOL_NAME` comes from
`tools/tool-names.ts`, which is not under src/; the spec only calls it
"the shell tool". Its identity is all the executor uses. -/
def SHELL_TOOL_NAME : String := "run_shell_command"

/-- Splits a character list into its newline-separated lines
(structurally recursive so that it evaluates inside the kernel). -/
def splitLines : List Char → List (List Char)
  | [] => [[]]
  | c :: rest =>
    match splitLines rest with
    | [] => [[]]
    | l :: ls => if c = '\n' then [] :: l :: ls else (c :: l) :: ls

/-- Modelled from the spec: `formatTruncatedToolOutput` from
`utils/fileUtils.ts` is not under src/. Spec section 4.2: "replace the
in-context content with a formatted stub that references the stored
artifact and previews up to maxPreviewLines lines". The stub here is an
artifact-reference header followed by the first `lines` lines of the
content. -/
def formatTruncatedToolOutput (content : String) (outputFile : String)
    (lines : Int) : String :=
  let ls := splitLines content.data
  let preview := String.mk (List.flatten (List.intersperse ['\n']
    (ls.take lines.toNat)))
  "Tool output truncated. Full output saved to: " ++ outputFile ++ "\n" ++ preview

/-- The `executing` call published by the pid callback
(tool-executor.ts lines 113-123): spreads the original call, sets status
executing, and preserves the originally recorded start time. -/
structure ExecutingToolCall where
  request : ToolCallRequestInfo
  tool : Tool
  invocation : Invocation
  pid : Int
  startTime : Option Int
  outcome : Option Nat
deriving DecidableEq

/-- A state update published through `onUpdateToolCall`. -/
inductive PublishedUpdate where
  | executing (c : ExecutingToolCall)
deriving DecidableEq

/-- Status string of a published update. -/
def PublishedUpdate.status : PublishedUpdate → String
  | .executing _ => "executing"

/-- The executing call built by one run of `setPidCallback`
(tool-executor.ts lines 113-121). -/
def setPidExecutingCall (call : ToolCall) (tool : Tool)
    (invocation : Invocation) (pid : Int) : ExecutingToolCall :=
  { request := call.request
    tool := tool
    invocation := invocation
    pid := pid
    startTime := call.startTime
    outcome := call.outcome }

/-- The list of `onUpdateToolCall` invocations performed by one run of
`setPidCallback` (line 122: exactly one, with the executing call). -/
def setPidCallbackUpdates (call : ToolCall) (tool : Tool)
    (invocation : Invocation) (pid : Int) : List PublishedUpdate :=
  [PublishedUpdate.executing (setPidExecutingCall call tool invocation pid)]

/-- All updates the executor publishes for one call when the external
invocation layer reports the process identities `pids` (the executor
itself publishes nothing outside the pid callback). -/
def executorPublishedUpdates (call : ToolCall) (tool : Tool)
    (invocation : Invocation) (pids : List Int) : List PublishedUpdate :=
  (pids.map (setPidCallbackUpdates call tool invocation)).flatten

/-- Terminal success call (construction site: lines 295-303). -/
structure SuccessfulToolCall where
  request : ToolCallRequestInfo
  tool : Tool
  response : ToolCallResponseInfo
  invocation : Invocation
  durationMs : Option Int
  outcome : Option Nat
deriving DecidableEq

/-- Terminal error call (construction site: lines 322-329); the source
copies `call.tool` without a guard, so the field stays optional. -/
structure ErroredToolCall where
  request : ToolCallRequestInfo
  response : ToolCallResponseInfo
  tool : Option Tool
  durationMs : Option Int
  outcome : Option Nat
deriving DecidableEq

/-- Terminal cancelled call (construction site: lines 203-226). -/
structure CancelledToolCall where
  request : ToolCallRequestInfo
  response : ToolCallResponseInfo
  tool : Tool
  invocation : Invocation
  durationMs : Option Int
  outcome : Option Nat
deriving DecidableEq

/-- The tagged union of terminal calls returned by `execute`. -/
inductive CompletedToolCall where
  | success (c : SuccessfulToolCall)
  | error (c : ErroredToolCall)
  | cancelled (c : CancelledToolCall)
deriving DecidableEq

/-- The status discriminant of a terminal call. -/
def CompletedToolCall.status : CompletedToolCall → String
  | .success _ => "success"
  | .error _ => "error"
  | .cancelled _ => "cancelled"

/-- The computed duration of a terminal call. -/
def CompletedToolCall.durationMs : CompletedToolCall → Option Int
  | .success c => c.durationMs
  | .error c => c.durationMs
  | .cancelled c => c.durationMs

/-- The response payload of a terminal call. -/
def CompletedToolCall.response : CompletedToolCall → ToolCallResponseInfo
  | .success c => c.response
  | .error c => c.response
  | .cancelled c => c.response

/-- Embeds `createCancelledResult` (lines 190-227). The throw when tool or
invocation is missing becomes the `Except.error` branch. -/
def createCancelledResult (now : Int) (call : ToolCall) (reason : String) :
    Except Fault CancelledToolCall :=
  let errorMessage := "[Operation Cancelled] " ++ reason
  let startTime := call.startTime
  match call.tool, call.invocation with
  | some tool, some invocation =>
    .ok
      { request := call.request
        response :=
          { callId := call.request.callId
            responseParts :=
              [ResponsePart.functionResponseError call.request.callId
                call.request.name errorMessage]
            resultDisplay := none
            error := none
            errorType := none
            outputFile := none
            contentLength := some (errorMessage.length : Int) }
        tool := tool
        invocation := invocation
        durationMs := durationOf startTime now
        outcome := call.outcome }
  | _, _ =>
    .error (.jsError "Cancelled tool call missing tool/invocation references")

/-- Embeds `createErrorResponse` (lines 332-354). -/
def createErrorResponse (request : ToolCallRequestInfo) (error : Fault)
    (errorType : Option ToolErrorType) : ToolCallResponseInfo :=
  let c := getToolErrorMessage error
  { callId := request.callId
    error := some error
    responseParts :=
      [ResponsePart.functionResponseError request.callId request.name c.message]
    resultDisplay := some c.display
    errorType := errorType
    outputFile := none
    contentLength := some (c.message.length : Int) }

/-- Embeds `createErrorResult` (lines 306-330); `errorTypeArg` is the
back-compat parameter, `none` at both call sites inside `execute`. -/
def createErrorResult (now : Int) (call : ToolCall) (error : Fault)
    (errorTypeArg : Option ToolErrorType) : ErroredToolCall :=
  let finalErrorType :=
    match error with
    | .toolExecutionError _ _ t => t
    | _ => errorTypeArg
  { request := call.request
    response := createErrorResponse call.request error finalErrorType
    tool := call.tool
    durationMs := durationOf call.startTime now
    outcome := call.outcome }

/-- Embeds the output-governance block of `createSuccessResult`
(lines 233-270): returns the possibly rewritten content, the artifact
reference, and the emitted truncation telemetry records. -/
def governOutput (cfg : Config) (env : Env) (call : ToolCall)
    (content0 : LlmContent) :
    Except Fault (LlmContent × Option String × List ToolOutputTruncatedEvent) :=
  let toolName := call.request.name
  let callId := call.request.callId
  match content0 with
  | .text s =>
    if toolName = SHELL_TOOL_NAME ∧ cfg.enableToolOutputTruncation = true ∧
        cfg.truncateToolOutputThreshold > 0 ∧ cfg.truncateToolOutputLines > 0 then
      let originalContentLength : Int := (s.length : Int)
      let threshold := cfg.truncateToolOutputThreshold
      let lines := cfg.truncateToolOutputLines
      if (s.length : Int) > threshold then
        (env.save s toolName callId cfg.projectTempDir).map fun outputFile =>
          let content := formatTruncatedToolOutput s outputFile lines
          (.text content, some outputFile,
            [{ prompt_id := call.request.prompt_id
               toolName := toolName
               originalContentLength := originalContentLength
               truncatedContentLength := (content.length : Int)
               threshold := threshold
               lines := lines }])
      else .ok (.text s, none, [])
    else .ok (.text s, none, [])
  | c => .ok (c, none, [])

/-- Embeds the tail of `createSuccessResult` after governance
(lines 272-303): transcript conversion, the response literal, and the
success call; the tool/invocation guard (line 291) becomes the
`Except.error` branch, reached only after conversion as in the source. -/
def buildSuccessCall (cfg : Config) (env : Env) (call : ToolCall)
    (toolResult : ToolResult) (content : LlmContent)
    (outputFile : Option String) : Except Fault SuccessfulToolCall :=
  (env.convert call.request.name call.request.callId content
      cfg.activeModel).bind fun parts =>
    match call.tool, call.invocation with
    | some tool, some invocation =>
      .ok
        { request := call.request
          tool := tool
          response :=
            { callId := call.request.callId
              responseParts := parts
              resultDisplay := toolResult.returnDisplay
              error := none
              errorType := none
              outputFile := outputFile
              contentLength :=
                match content with
                | .text s => some ((s.length : Int))
                | .nonText _ => none }
          invocation := invocation
          durationMs := durationOf call.startTime env.now
          outcome := call.outcome }
    | _, _ => .error (.jsError "Successful tool call missing tool or invocation")

/-- Embeds `createSuccessResult` (lines 229-304): governance followed by
payload construction, paired with the telemetry records it emitted. -/
def createSuccessResult (cfg : Config) (env : Env) (call : ToolCall)
    (toolResult : ToolResult) :
    Except Fault (SuccessfulToolCall × List ToolOutputTruncatedEvent) :=
  (governOutput cfg env call toolResult.llmContent).bind fun g =>
    (buildSuccessCall cfg env call toolResult g.fst g.snd.fst).map fun c =>
      (c, g.snd.snd)

/-- Embeds the catch handler of `execute` (lines 166-185): `sigCatch` is
the `signal.aborted` read inside the handler; a fault thrown by
`createCancelledResult` there escapes `execute`. -/
def execCatch (env : Env) (call : ToolCall) (e : Fault) (sigCatch : Bool) :
    Except Fault CompletedToolCall :=
  if sigCatch then
    (createCancelledResult env.now call "User cancelled tool execution.").map
      CompletedToolCall.cancelled
  else
    let c := getToolErrorMessage e
    let finalErrorType := c.errorType.getD ToolErrorType.UNHANDLED_EXCEPTION
    let error := Fault.toolExecutionError c.message (some c.display)
      (some finalErrorType)
    .ok (.error (createErrorResult env.now call error none))

/-- Embeds the try block of `execute` (lines 110-165): `outcome` is the
settlement of the hook-wrapped invocation promise, `sigTry` is the
`signal.aborted` read at line 150. Its `Except.error` results are the
faults the catch handler receives. -/
def execTry (cfg : Config) (env : Env) (call : ToolCall)
    (outcome : Except Fault ToolResult) (sigTry : Bool) :
    Except Fault CompletedToolCall :=
  outcome.bind fun toolResult =>
    if sigTry then
      (createCancelledResult env.now call "User cancelled tool execution.").map
        CompletedToolCall.cancelled
    else
      match toolResult.error with
      | none =>
        (createSuccessResult cfg env call toolResult).map fun p =>
          CompletedToolCall.success p.fst
      | some err =>
        let error := Fault.toolExecutionError err.message
          toolResult.returnDisplay err.type
        .ok (.error (createErrorResult env.now call error none))

/-- Embeds `ToolExecutor.execute` (lines 79-188): the precondition check
(lines 85-89) throws out of `execute`; otherwise the try block runs and
its fault, if any, is handled by the catch handler. -/
def execute (cfg : Config) (env : Env) (call : ToolCall)
    (outcome : Except Fault ToolResult) (sigTry sigCatch : Bool) :
    Except Fault CompletedToolCall :=
  match call.tool, call.invocation with
  | some _, some _ =>
    match execTry cfg env call outcome sigTry with
    | .ok c => .ok c
    | .error e => execCatch env call e sigCatch
  | _, _ =>
    .error (.jsError ("Cannot execute tool call " ++ call.request.callId ++
      ": Tool or Invocation missing."))

/-! Concrete sample values used by the witness theorems. -/

/-- A sample request. -/
def sampleRequest : ToolCallRequestInfo :=
  { callId := "call-1", name := "run_shell_command", prompt_id := "prompt-1" }

/-- A sample tool descriptor. -/
def sampleTool : Tool := { name := "run_shell_command", canUpdateOutput := false }

/-- A sample invocation. -/
def sampleInvocation : Invocation := { isShellToolInvocation := true }

/-- A sample call with tool and invocation resolved and a start time. -/
def sampleCall : ToolCall :=
  { request := sampleRequest
    tool := some sampleTool
    invocation := some sampleInvocation
    startTime := some 100
    outcome := some 0 }

/-- A sample configuration with governance enabled, threshold 50,
preview 5 lines. -/
def sampleConfig : Config :=
  { enableToolOutputTruncation := true
    truncateToolOutputThreshold := 50
    truncateToolOutputLines := 5
    activeModel := "model-1"
    projectTempDir := "/tmp/project" }

/-- A sample environment whose artifact store and transcript conversion
always succeed. -/
def okEnv : Env :=
  { save := fun _ _ _ _ => .ok "out.txt"
    convert := fun _ _ _ _ => .ok [ResponsePart.otherPart 0]
    now := 1000 }

/-- A sample settled success result with short textual content. -/
def sampleToolResult : ToolResult :=
  { llmContent := .text "hello", returnDisplay := some "disp", error := none }

/-- C1. If the cancellation token is aborted at the race-resolution
checkpoint that runs (the post-await read for a settled invocation, the
in-catch read for a thrown fault), execute returns a cancelled terminal
call whatever the settlement was, and its response error text is
"[Operation Cancelled] User cancelled tool execution.". -/
theorem cancelled_wins_race (cfg : Config) (env : Env) (call : ToolCall)
    (t : Tool) (i : Invocation) (outcome : Except Fault ToolResult)
    (sigTry sigCatch : Bool)
    (htool : call.tool = some t) (hinv : call.invocation = some i)
    (habort : (∃ tr, outcome = .ok tr ∧ sigTry = true) ∨
      (∃ e, outcome = .error e ∧ sigCatch = true)) :
    ∃ c, execute cfg env call outcome sigTry sigCatch =
        .ok (CompletedToolCall.cancelled c) ∧
      c.response.responseParts =
        [ResponsePart.functionResponseError call.request.callId
          call.request.name
          "[Operation Cancelled] User cancelled tool execution."] := by
  rcases habort with ⟨tr, ho, hs⟩ | ⟨e, ho, hs⟩ <;> subst ho <;> subst hs <;>
    simp [execute, execTry, execCatch, createCancelledResult, htool, hinv,
      Except.bind, Except.map]

/-- Witness for C1: a concrete aborted-before-settlement run returns a
cancelled call with the fixed error text. -/
theorem cancelled_wins_race_witness :
    ∃ c, execute sampleConfig okEnv sampleCall (.ok sampleToolResult)
        true false = .ok (CompletedToolCall.cancelled c) ∧
      c.response.responseParts =
        [ResponsePart.functionResponseError "call-1" "run_shell_command"
          "[Operation Cancelled] User cancelled tool execution."] := by
  have h := cancelled_wins_race sampleConfig okEnv sampleCall sampleTool
    sampleInvocation (.ok sampleToolResult) true false rfl rfl
    (Or.inl ⟨sampleToolResult, rfl, rfl⟩)
  simpa [sampleCall, sampleRequest] using h

/-- Helper: when tool and invocation are present, the catch handler never
rethrows — it always produces a terminal call. -/
theorem execCatch_ok (env : Env) (call : ToolCall) (e : Fault)
    (sigCatch : Bool) (t : Tool) (i : Invocation)
    (htool : call.tool = some t) (hinv : call.invocation = some i) :
    ∃ c, execCatch env call e sigCatch = .ok c := by
  cases sigCatch <;>
    simp [execCatch, createCancelledResult, htool, hinv, Except.map]

/-- C8. The precondition check is the only fault that escapes execute:
a call missing its tool or invocation makes execute throw the
precondition-violation error (no terminal call), and any call carrying
both always yields a terminal call. -/
theorem precondition_violation_only_escape (cfg : Config) (env : Env)
    (call : ToolCall) (outcome : Except Fault ToolResult)
    (sigTry sigCatch : Bool) :
    (call.tool = none ∨ call.invocation = none →
      execute cfg env call outcome sigTry sigCatch =
        .error (.jsError ("Cannot execute tool call " ++
          call.request.callId ++ ": Tool or Invocation missing."))) ∧
    (∀ t i, call.tool = some t → call.invocation = some i →
      ∃ c, execute cfg env call outcome sigTry sigCatch = .ok c) := by
  constructor
  · rintro (h | h)
    · simp [execute, h]
    · cases htool : call.tool <;> simp [execute, h, htool]
  · intro t i htool hinv
    cases outcome with
    | error e =>
      obtain ⟨c, hc⟩ := execCatch_ok env call e sigCatch t i htool hinv
      exact ⟨c, by simp [execute, execTry, htool, hinv, Except.bind, hc]⟩
    | ok tr =>
      cases sigTry with
      | true =>
        simp [execute, execTry, createCancelledResult, htool, hinv,
          Except.bind, Except.map]
      | false =>
        cases herr : tr.error with
        | some err =>
          simp [execute, execTry, htool, hinv, Except.bind, herr]
        | none =>
          cases hcs : createSuccessResult cfg env call tr with
          | ok p =>
            simp [execute, execTry, htool, hinv, Except.bind, herr, hcs,
              Except.map]
          | error f =>
            obtain ⟨c, hc⟩ := execCatch_ok env call f sigCatch t i htool hinv
            exact ⟨c, by simp [execute, execTry, htool, hinv, Except.bind,
              herr, hcs, Except.map, hc]⟩

/-- Witness for C8: on the sample call (tool and invocation present) a
terminal call is produced, and dropping the tool makes execute throw the
precondition fault. -/
theorem precondition_violation_only_escape_witness :
    (∃ c, execute sampleConfig okEnv sampleCall (.ok sampleToolResult)
      false false = .ok c) ∧
    execute sampleConfig okEnv
        { sampleCall with tool := none } (.ok sampleToolResult) false false =
      .error (.jsError
        "Cannot execute tool call call-1: Tool or Invocation missing.") := by
  constructor
  · exact (precondition_violation_only_escape sampleConfig okEnv sampleCall
      (.ok sampleToolResult) false false).2 sampleTool sampleInvocation rfl rfl
  · have h := (precondition_violation_only_escape sampleConfig okEnv
      { sampleCall with tool := none } (.ok sampleToolResult) false false).1
      (Or.inl rfl)
    simpa [sampleCall, sampleRequest] using h

/-- Helper: governance always completes when the artifact store does not
fault. -/
theorem governOutput_ok (cfg : Config) (env : Env) (call : ToolCall)
    (content0 : LlmContent)
    (hsave : ∀ a b c d, ∃ f, env.save a b c d = .ok f) :
    ∃ g, governOutput cfg env call content0 = .ok g := by
  cases content0 with
  | nonText n => exact ⟨_, rfl⟩
  | text s =>
    simp only [governOutput]
    split
    · split
      · obtain ⟨f, hf⟩ :=
          hsave s call.request.name call.request.callId cfg.projectTempDir
        simp [hf, Except.map]
      · exact ⟨_, rfl⟩
    · exact ⟨_, rfl⟩

/-- Helper: success-payload construction always completes when the
artifact store and transcript conversion do not fault and the call
carries tool and invocation. -/
theorem createSuccessResult_ok (cfg : Config) (env : Env) (call : ToolCall)
    (tr : ToolResult) (t : Tool) (i : Invocation)
    (htool : call.tool = some t) (hinv : call.invocation = some i)
    (hsave : ∀ a b c d, ∃ f, env.save a b c d = .ok f)
    (hconv : ∀ a b c m, ∃ p, env.convert a b c m = .ok p) :
    ∃ p, createSuccessResult cfg env call tr = .ok p := by
  obtain ⟨g, hg⟩ := governOutput_ok cfg env call tr.llmContent hsave
  obtain ⟨parts, hp⟩ :=
    hconv call.request.name call.request.callId g.fst cfg.activeModel
  simp only [createSuccessResult, hg, Except.bind]
  simp only [buildSuccessCall, hp, Except.bind, htool, hinv]
  exact ⟨_, rfl⟩

/-- C2. Under the precondition (tool and invocation present) and a
non-faulting artifact store and transcript conversion, execute returns
exactly one terminal call whose status follows the precedence: aborted
token → cancelled, else thrown fault → error, else settled error
descriptor → error, else success — the error descriptor, not a thrown
fault, discriminates success from error for settled results. -/
theorem terminal_status_precedence (cfg : Config) (env : Env)
    (call : ToolCall) (t : Tool) (i : Invocation)
    (outcome : Except Fault ToolResult) (sigTry sigCatch : Bool)
    (htool : call.tool = some t) (hinv : call.invocation = some i)
    (hsave : ∀ a b c d, ∃ f, env.save a b c d = .ok f)
    (hconv : ∀ a b c m, ∃ p, env.convert a b c m = .ok p) :
    ∃ c, execute cfg env call outcome sigTry sigCatch = .ok c ∧
      c.status =
        (match outcome with
          | .ok tr =>
            if sigTry then "cancelled"
            else if tr.error.isSome then "error" else "success"
          | .error _ => if sigCatch then "cancelled" else "error") := by
  cases outcome with
  | error e =>
    cases sigCatch <;>
      simp [execute, execTry, execCatch, createCancelledResult, htool, hinv,
        Except.bind, Except.map, CompletedToolCall.status]
  | ok tr =>
    cases sigTry with
    | true =>
      simp [execute, execTry, createCancelledResult, htool, hinv,
        Except.bind, Except.map, CompletedToolCall.status]
    | false =>
      cases herr : tr.error with
      | some err =>
        simp [execute, execTry, htool, hinv, Except.bind, herr,
          CompletedToolCall.status]
      | none =>
        obtain ⟨p, hcs⟩ :=
          createSuccessResult_ok cfg env call tr t i htool hinv hsave hconv
        simp [execute, execTry, htool, hinv, Except.bind, herr, hcs,
          Except.map, CompletedToolCall.status]

/-- Witness for C2: a concrete settled result without error descriptor,
token not aborted, yields status success. -/
theorem terminal_status_precedence_witness :
    ∃ c, execute sampleConfig okEnv sampleCall (.ok sampleToolResult)
        false false = .ok c ∧ c.status = "success" := by
  have h := terminal_status_precedence sampleConfig okEnv sampleCall
    sampleTool sampleInvocation (.ok sampleToolResult) false false rfl rfl
    (fun a b c d => ⟨"out.txt", rfl⟩) (fun a b c m => ⟨[.otherPart 0], rfl⟩)
  simpa [sampleToolResult] using h

/-- C4. The classifier passes a structured fault (explicit display and
kind) through unchanged; any other fault collapses to its textual
representation with display = message and, through the catch handler,
kind UNHANDLED_EXCEPTION; and in every error response the
machine-readable error field carries the classified message while
resultDisplay carries the classified display — never swapped. -/
theorem classifier_never_swaps (env : Env) (call : ToolCall)
    (req : ToolCallRequestInfo) (e : Fault) (ty : Option ToolErrorType)
    (m d r : String) (k : ToolErrorType) :
    getToolErrorMessage (.toolExecutionError m (some d) (some k)) =
      ⟨m, d, some k⟩ ∧
    getToolErrorMessage (.jsError m) = ⟨m, m, none⟩ ∧
    getToolErrorMessage (.nonError r) = ⟨r, r, none⟩ ∧
    execCatch env call (.jsError m) false =
      .ok (.error (createErrorResult env.now call
        (.toolExecutionError m (some m)
          (some ToolErrorType.UNHANDLED_EXCEPTION)) none)) ∧
    execCatch env call (.toolExecutionError m (some d) (some k)) false =
      .ok (.error (createErrorResult env.now call
        (.toolExecutionError m (some d) (some k)) none)) ∧
    (createErrorResult env.now call
        (.toolExecutionError m (some d) (some k)) none).response.errorType =
      some k ∧
    (createErrorResponse req e ty).responseParts =
      [ResponsePart.functionResponseError req.callId req.name
        (getToolErrorMessage e).message] ∧
    (createErrorResponse req e ty).resultDisplay =
      some (getToolErrorMessage e).display := by
  refine ⟨rfl, rfl, rfl, rfl, rfl, rfl, rfl, rfl⟩

/-- C5. One run of the pid callback publishes exactly one update, that
update carries status executing and preserves the originally recorded
start time; the executor publishes `executing` at most once per call
whenever the invocation layer invokes the callback at most once. -/
theorem pid_callback_single_transition (call : ToolCall) (tool : Tool)
    (invocation : Invocation) (pid : Int) :
    setPidCallbackUpdates call tool invocation pid =
      [PublishedUpdate.executing (setPidExecutingCall call tool invocation pid)] ∧
    (setPidCallbackUpdates call tool invocation pid).length = 1 ∧
    (setPidExecutingCall call tool invocation pid).startTime = call.startTime ∧
    (PublishedUpdate.executing
        (setPidExecutingCall call tool invocation pid)).status = "executing" ∧
    (∀ pids : List Int, pids.length ≤ 1 →
      (executorPublishedUpdates call tool invocation pids).length ≤ 1) := by
  have hlen : ∀ pids : List Int,
      (executorPublishedUpdates call tool invocation pids).length =
        pids.length := by
    intro pids
    induction pids with
    | nil => rfl
    | cons p ps ih =>
      simp only [executorPublishedUpdates, List.map_cons, List.flatten_cons,
        List.length_append, setPidCallbackUpdates, List.length_cons,
        List.length_nil] at ih ⊢
      omega
  exact ⟨rfl, rfl, rfl, rfl, fun pids h => by rw [hlen]; exact h⟩

/-- Witness for C5: one concrete callback run publishes one executing
update; a single pid report keeps the executing count at one. -/
theorem pid_callback_single_transition_witness :
    (setPidCallbackUpdates sampleCall sampleTool sampleInvocation 42).length = 1 ∧
    (executorPublishedUpdates sampleCall sampleTool sampleInvocation
      [42]).length ≤ 1 :=
  ⟨(pid_callback_single_transition sampleCall sampleTool sampleInvocation
      42).2.1,
    (pid_callback_single_transition sampleCall sampleTool sampleInvocation
      42).2.2.2.2 [42] (by decide)⟩

/-- The contentLength rule of the success response (line 286): defined
only for textual content. -/
def contentLengthOf : LlmContent → Option Int
  | .text s => some ((s.length : Int))
  | .nonText _ => none

/-- Helper: inverting a completed success-payload construction — the
response carries the artifact reference, display and duration exactly as
built (tool-executor.ts lines 279-303). -/
theorem buildSuccessCall_inv (cfg : Config) (env : Env) (call : ToolCall)
    (tr : ToolResult) (content : LlmContent) (ofile : Option String)
    (sc : SuccessfulToolCall)
    (h : buildSuccessCall cfg env call tr content ofile = .ok sc) :
    sc.response.outputFile = ofile ∧
    sc.response.resultDisplay = tr.returnDisplay ∧
    sc.durationMs = durationOf call.startTime env.now ∧
    sc.response.contentLength = contentLengthOf content := by
  unfold buildSuccessCall at h
  cases hcv : env.convert call.request.name call.request.callId content
      cfg.activeModel with
  | error f => rw [hcv] at h; simp [Except.bind] at h
  | ok parts =>
    rw [hcv] at h
    simp only [Except.bind] at h
    cases htool : call.tool with
    | none => rw [htool] at h; simp at h
    | some t =>
      cases hinv : call.invocation with
      | none => rw [htool, hinv] at h; simp at h
      | some i =>
        rw [htool, hinv] at h
        injection h with h
        subst h
        refine ⟨rfl, rfl, rfl, ?_⟩
        cases content <;> rfl

/-- Helper: governance passes any content through untouched when the
outer enablement condition fails. -/
theorem governOutput_noop (cfg : Config) (env : Env) (call : ToolCall)
    (content0 : LlmContent)
    (hneg : ¬(call.request.name = SHELL_TOOL_NAME ∧
      cfg.enableToolOutputTruncation = true ∧
      cfg.truncateToolOutputThreshold > 0 ∧
      cfg.truncateToolOutputLines > 0)) :
    governOutput cfg env call content0 = .ok (content0, none, []) := by
  cases content0 with
  | nonText n => rfl
  | text s =>
    simp only [governOutput]
    rw [if_neg hneg]

/-- Helper: with governance inert, createSuccessResult is exactly the
ungoverned payload construction with no artifact reference and no
telemetry. -/
theorem createSuccessResult_of_noop (cfg : Config) (env : Env)
    (call : ToolCall) (tr : ToolResult)
    (hg : governOutput cfg env call tr.llmContent = .ok (tr.llmContent, none, [])) :
    createSuccessResult cfg env call tr =
      (buildSuccessCall cfg env call tr tr.llmContent none).map
        (fun c => (c, [])) := by
  simp only [createSuccessResult, hg, Except.bind]

/-- C7. Whenever the configured threshold is nonpositive or the
configured preview line count is nonpositive, output governance is a
no-op for every content: the content reaches the response construction
unchanged, no telemetry is emitted, and any produced success response has
no artifact reference. -/
theorem governance_noop_nonpositive (cfg : Config) (env : Env)
    (call : ToolCall) (tr : ToolResult)
    (h : cfg.truncateToolOutputThreshold ≤ 0 ∨
      cfg.truncateToolOutputLines ≤ 0) :
    governOutput cfg env call tr.llmContent = .ok (tr.llmContent, none, []) ∧
    createSuccessResult cfg env call tr =
      (buildSuccessCall cfg env call tr tr.llmContent none).map
        (fun c => (c, [])) ∧
    (∀ sc evs, createSuccessResult cfg env call tr = .ok (sc, evs) →
      sc.response.outputFile = none ∧ evs = []) := by
  have hg := governOutput_noop cfg env call tr.llmContent (by
    rintro ⟨h1, h2, h3, h4⟩
    rcases h with h | h <;> omega)
  refine ⟨hg, createSuccessResult_of_noop cfg env call tr hg, ?_⟩
  intro sc evs hscs
  rw [createSuccessResult_of_noop cfg env call tr hg] at hscs
  cases hb : buildSuccessCall cfg env call tr tr.llmContent none with
  | error f => rw [hb] at hscs; simp [Except.map] at hscs
  | ok b =>
    rw [hb] at hscs
    simp only [Except.map, Except.ok.injEq, Prod.mk.injEq] at hscs
    obtain ⟨hsc, hevs⟩ := hscs
    subst hsc
    subst hevs
    exact ⟨(buildSuccessCall_inv cfg env call tr tr.llmContent none b hb).1, rfl⟩

/-- A config identical to the sample but with a zero threshold. -/
def zeroThresholdConfig : Config :=
  { sampleConfig with truncateToolOutputThreshold := 0 }

/-- A long, single-line textual success result (60 characters). -/
def bigText : String := String.mk (List.replicate 60 'a')

/-- A success result carrying the long content. -/
def bigToolResult : ToolResult :=
  { llmContent := .text bigText, returnDisplay := none, error := none }

/-- Witness for C7: threshold 0 with long content leaves governance
inert. -/
theorem governance_noop_nonpositive_witness :
    governOutput zeroThresholdConfig okEnv sampleCall bigToolResult.llmContent =
      .ok (bigToolResult.llmContent, none, []) :=
  (governance_noop_nonpositive zeroThresholdConfig okEnv sampleCall
    bigToolResult (Or.inl (by decide))).1

/-- C9. Whenever the tool is not the shell tool, or the output-truncation
flag is off, governance is a no-op for every content and threshold: the
content reaches the response construction unchanged, no telemetry is
emitted, and any produced success response has no artifact reference. -/
theorem governance_noop_non_shell_or_disabled (cfg : Config) (env : Env)
    (call : ToolCall) (tr : ToolResult)
    (h : call.request.name ≠ SHELL_TOOL_NAME ∨
      cfg.enableToolOutputTruncation = false) :
    governOutput cfg env call tr.llmContent = .ok (tr.llmContent, none, []) ∧
    createSuccessResult cfg env call tr =
      (buildSuccessCall cfg env call tr tr.llmContent none).map
        (fun c => (c, [])) ∧
    (∀ sc evs, createSuccessResult cfg env call tr = .ok (sc, evs) →
      sc.response.outputFile = none ∧ evs = []) := by
  have hg := governOutput_noop cfg env call tr.llmContent (by
    rintro ⟨h1, h2, h3, h4⟩
    rcases h with h | h
    · exact h h1
    · rw [h] at h2; exact Bool.false_ne_true h2)
  refine ⟨hg, createSuccessResult_of_noop cfg env call tr hg, ?_⟩
  intro sc evs hscs
  rw [createSuccessResult_of_noop cfg env call tr hg] at hscs
  cases hb : buildSuccessCall cfg env call tr tr.llmContent none with
  | error f => rw [hb] at hscs; simp [Except.map] at hscs
  | ok b =>
    rw [hb] at hscs
    simp only [Except.map, Except.ok.injEq, Prod.mk.injEq] at hscs
    obtain ⟨hsc, hevs⟩ := hscs
    subst hsc
    subst hevs
    exact ⟨(buildSuccessCall_inv cfg env call tr tr.llmContent none b hb).1, rfl⟩

/-- A call whose request names a non-shell tool. -/
def readFileCall : ToolCall :=
  { sampleCall with request := { sampleRequest with name := "read_file" } }

/-- Witness for C9: a non-shell tool with long content and governance
fully enabled still passes through untouched. -/
theorem governance_noop_non_shell_witness :
    governOutput sampleConfig okEnv readFileCall bigToolResult.llmContent =
      .ok (bigToolResult.llmContent, none, []) :=
  (governance_noop_non_shell_or_disabled sampleConfig okEnv readFileCall
    bigToolResult (Or.inl (by decide))).1

/-- The telemetry record emitted for a truncation of content `s` saved to
`f` (tool-executor.ts lines 259-268). -/
def truncationEvent (call : ToolCall) (cfg : Config) (s f : String) :
    ToolOutputTruncatedEvent :=
  { prompt_id := call.request.prompt_id
    toolName := call.request.name
    originalContentLength := (s.length : Int)
    truncatedContentLength :=
      ((formatTruncatedToolOutput s f cfg.truncateToolOutputLines).length : Int)
    threshold := cfg.truncateToolOutputThreshold
    lines := cfg.truncateToolOutputLines }

/-- C3 (amended). With governance enabled, shell tool, positive threshold
and preview lines, and textual content longer than the threshold: the
content is rewritten to the artifact-referencing stub, the artifact
reference is present on the success response, and the telemetry record
carries exactly the pre-rewrite and post-rewrite content lengths. -/
theorem governance_truncates (cfg : Config) (env : Env) (call : ToolCall)
    (tr : ToolResult) (s f : String)
    (hc : tr.llmContent = .text s)
    (hname : call.request.name = SHELL_TOOL_NAME)
    (hen : cfg.enableToolOutputTruncation = true)
    (hth : cfg.truncateToolOutputThreshold > 0)
    (hln : cfg.truncateToolOutputLines > 0)
    (hlen : (s.length : Int) > cfg.truncateToolOutputThreshold)
    (hsave : env.save s call.request.name call.request.callId
      cfg.projectTempDir = .ok f) :
    governOutput cfg env call tr.llmContent =
      .ok (.text (formatTruncatedToolOutput s f cfg.truncateToolOutputLines),
        some f, [truncationEvent call cfg s f]) ∧
    (∀ sc evs, createSuccessResult cfg env call tr = .ok (sc, evs) →
      sc.response.outputFile = some f ∧
      sc.response.contentLength = some
        ((formatTruncatedToolOutput s f cfg.truncateToolOutputLines).length : Int) ∧
      evs = [truncationEvent call cfg s f]) := by
  have hg : governOutput cfg env call tr.llmContent =
      .ok (.text (formatTruncatedToolOutput s f cfg.truncateToolOutputLines),
        some f, [truncationEvent call cfg s f]) := by
    rw [hc]
    simp only [governOutput]
    rw [if_pos ⟨hname, hen, hth, hln⟩, if_pos hlen, hsave]
    rfl
  refine ⟨hg, ?_⟩
  intro sc evs h
  unfold createSuccessResult at h
  rw [hg] at h
  simp only [Except.bind] at h
  cases hb : buildSuccessCall cfg env call tr
      (.text (formatTruncatedToolOutput s f cfg.truncateToolOutputLines))
      (some f) with
  | error e => rw [hb] at h; simp [Except.map] at h
  | ok b =>
    rw [hb] at h
    simp only [Except.map, Except.ok.injEq, Prod.mk.injEq] at h
    obtain ⟨h1, h2⟩ := h
    subst h1
    have hinv := buildSuccessCall_inv cfg env call tr _ _ b hb
    exact ⟨hinv.1, hinv.2.2.2, h2.symm⟩

/-- Witness for C3 amended: on 60 characters of one line with threshold
50 and 5 preview lines, the artifact reference and the matching telemetry
lengths are produced. -/
theorem governance_truncates_witness :
    governOutput sampleConfig okEnv sampleCall bigToolResult.llmContent =
      .ok (.text (formatTruncatedToolOutput bigText "out.txt" 5),
        some "out.txt", [truncationEvent sampleCall sampleConfig bigText
          "out.txt"]) :=
  (governance_truncates sampleConfig okEnv sampleCall bigToolResult bigText
    "out.txt" rfl rfl rfl (by decide) (by decide) (by decide) rfl).1

/-- Counterexample for C3 as stated: with single-line content of length
60 over a threshold of 50 and 5 preview lines, the rewritten content is
not shorter than the original — the stub keeps the whole single line and
adds the artifact header. -/
theorem governance_truncates_counterexample :
    (bigText.length : Int) > sampleConfig.truncateToolOutputThreshold ∧
    sampleConfig.truncateToolOutputThreshold > 0 ∧
    sampleConfig.truncateToolOutputLines > 0 ∧
    (createSuccessResult sampleConfig okEnv sampleCall bigToolResult).map
        (fun p => p.fst.response.contentLength) =
      .ok (some ((formatTruncatedToolOutput bigText "out.txt" 5).length : Int)) ∧
    ¬ ((formatTruncatedToolOutput bigText "out.txt" 5).length <
      bigText.length) := by
  exact ⟨by decide, by decide, by decide, rfl, by decide⟩

/-- Helper: a produced cancelled call computes its duration from the
recorded start time via the JS truthiness pattern. -/
theorem createCancelledResult_duration (now : Int) (call : ToolCall)
    (reason : String) (cc : CancelledToolCall)
    (h : createCancelledResult now call reason = .ok cc) :
    cc.durationMs = durationOf call.startTime now := by
  cases htool : call.tool with
  | none => simp [createCancelledResult, htool] at h
  | some t =>
    cases hinv : call.invocation with
    | none => simp [createCancelledResult, htool, hinv] at h
    | some i =>
      simp only [createCancelledResult, htool, hinv, Except.ok.injEq] at h
      subst h
      rfl

/-- Helper: every terminal call the catch handler produces computes its
duration the same way. -/
theorem execCatch_duration (env : Env) (call : ToolCall) (e : Fault)
    (sig : Bool) (c : CompletedToolCall)
    (h : execCatch env call e sig = .ok c) :
    c.durationMs = durationOf call.startTime env.now := by
  cases sig with
  | true =>
    simp only [execCatch, if_true] at h
    cases hcc : createCancelledResult env.now call
        "User cancelled tool execution." with
    | error f => rw [hcc] at h; simp [Except.map] at h
    | ok cc =>
      rw [hcc] at h
      simp only [Except.map, Except.ok.injEq] at h
      subst h
      simpa [CompletedToolCall.durationMs] using
        createCancelledResult_duration env.now call _ cc hcc
  | false =>
    simp only [execCatch] at h
    rw [if_neg (by decide)] at h
    injection h with h
    subst h
    rfl

/-- Helper: a produced success call computes its duration the same way. -/
theorem createSuccessResult_duration (cfg : Config) (env : Env)
    (call : ToolCall) (tr : ToolResult) (sc : SuccessfulToolCall)
    (evs : List ToolOutputTruncatedEvent)
    (h : createSuccessResult cfg env call tr = .ok (sc, evs)) :
    sc.durationMs = durationOf call.startTime env.now := by
  unfold createSuccessResult at h
  cases hg : governOutput cfg env call tr.llmContent with
  | error f => rw [hg] at h; simp [Except.bind] at h
  | ok g =>
    rw [hg] at h
    simp only [Except.bind] at h
    cases hb : buildSuccessCall cfg env call tr g.fst g.snd.fst with
    | error f => rw [hb] at h; simp [Except.map] at h
    | ok b =>
      rw [hb] at h
      simp only [Except.map, Except.ok.injEq, Prod.mk.injEq] at h
      obtain ⟨h1, h2⟩ := h
      subst h1
      exact (buildSuccessCall_inv cfg env call tr g.fst g.snd.fst b hb).2.2.1

/-- Helper: every terminal call the try block produces computes its
duration the same way. -/
theorem execTry_duration (cfg : Config) (env : Env) (call : ToolCall)
    (outcome : Except Fault ToolResult) (sigTry : Bool)
    (c : CompletedToolCall)
    (h : execTry cfg env call outcome sigTry = .ok c) :
    c.durationMs = durationOf call.startTime env.now := by
  cases outcome with
  | error e => simp [execTry, Except.bind] at h
  | ok tr =>
    simp only [execTry, Except.bind] at h
    cases sigTry with
    | true =>
      simp only [if_true] at h
      cases hcc : createCancelledResult env.now call
          "User cancelled tool execution." with
      | error f => rw [hcc] at h; simp [Except.map] at h
      | ok cc =>
        rw [hcc] at h
        simp only [Except.map, Except.ok.injEq] at h
        subst h
        simpa [CompletedToolCall.durationMs] using
          createCancelledResult_duration env.now call _ cc hcc
    | false =>
      rw [if_neg (by decide)] at h
      cases herr : tr.error with
      | some err =>
        rw [herr] at h
        simp only [Except.ok.injEq] at h
        subst h
        rfl
      | none =>
        rw [herr] at h
        cases hcs : createSuccessResult cfg env call tr with
        | error f => rw [hcs] at h; simp [Except.map] at h
        | ok p =>
          rw [hcs] at h
          simp only [Except.map, Except.ok.injEq] at h
          subst h
          simpa [CompletedToolCall.durationMs] using
            createSuccessResult_duration cfg env call tr p.fst p.snd hcs

/-- Helper: every terminal call execute returns computes its duration
from the recorded start time and the clock. -/
theorem execute_duration (cfg : Config) (env : Env) (call : ToolCall)
    (outcome : Except Fault ToolResult) (sigTry sigCatch : Bool)
    (c : CompletedToolCall)
    (h : execute cfg env call outcome sigTry sigCatch = .ok c) :
    c.durationMs = durationOf call.startTime env.now := by
  unfold execute at h
  cases htool : call.tool with
  | none => rw [htool] at h; simp at h
  | some t =>
    cases hinv : call.invocation with
    | none => rw [htool, hinv] at h; simp at h
    | some i =>
      rw [htool, hinv] at h
      cases htr : execTry cfg env call outcome sigTry with
      | ok c0 =>
        rw [htr] at h
        injection h with h
        subst h
        exact execTry_duration cfg env call outcome sigTry c0 htr
      | error e =>
        rw [htr] at h
        exact execCatch_duration env call e sigCatch c h

/-- C6 (amended). Every terminal call produced by execute carries
duration = durationOf(startTime, now); that duration is undefined iff no
start time was recorded or the recorded start time is the falsy value 0;
and whenever a nonzero start time not after the clock was recorded, the
duration equals now − start and is non-negative. -/
theorem duration_semantics (cfg : Config) (env : Env) (call : ToolCall)
    (outcome : Except Fault ToolResult) (sigTry sigCatch : Bool) :
    (∀ c, execute cfg env call outcome sigTry sigCatch = .ok c →
      c.durationMs = durationOf call.startTime env.now) ∧
    (durationOf call.startTime env.now = none ↔
      (call.startTime = none ∨ call.startTime = some 0)) ∧
    (∀ t : Int, call.startTime = some t → t ≠ 0 → t ≤ env.now →
      durationOf call.startTime env.now = some (env.now - t) ∧
        0 ≤ env.now - t) := by
  refine ⟨fun c h => execute_duration cfg env call outcome sigTry sigCatch c h,
    ?_, ?_⟩
  · cases hst : call.startTime with
    | none => simp [durationOf]
    | some t =>
      by_cases ht : t = 0
      · subst ht; simp [durationOf]
      · simp [durationOf, ht]
  · intro t hst ht hle
    rw [hst]
    constructor
    · simp [durationOf, ht]
    · omega

/-- Witness for C6 amended: the sample call records start time 100 with
clock 1000, so the duration is 900 and non-negative. -/
theorem duration_semantics_witness :
    durationOf sampleCall.startTime okEnv.now = some (1000 - 100) ∧
      0 ≤ (1000 : Int) - 100 :=
  (duration_semantics sampleConfig okEnv sampleCall (.ok sampleToolResult)
    false false).2.2 100 rfl (by decide) (by decide)

/-- A call identical to the sample but with recorded start time 0. -/
def zeroStartCall : ToolCall := { sampleCall with startTime := some 0 }

/-- Counterexample for C6 as stated: a call with recorded start time 0
(the JS falsy value) produces a terminal call with undefined duration
even though a start time was recorded. -/
theorem duration_zero_start_counterexample :
    zeroStartCall.startTime = some 0 ∧
    (execute sampleConfig okEnv zeroStartCall (.ok sampleToolResult)
        false false).map CompletedToolCall.durationMs = .ok none := by
  exact ⟨rfl, rfl⟩

/-- C10. A fault thrown while constructing the success result (artifact
store or transcript conversion) lands in the same catch handler as a
fault thrown by the invocation itself, and therefore yields a cancelled
terminal call when the token is aborted at the in-catch read and an error
terminal call otherwise — it never escapes execute and never yields a
success terminal call. -/
theorem success_construction_fault_caught (cfg : Config) (env : Env)
    (call : ToolCall) (tr : ToolResult) (t : Tool) (i : Invocation)
    (f : Fault) (sigCatch : Bool)
    (htool : call.tool = some t) (hinv : call.invocation = some i)
    (herr : tr.error = none)
    (hfault : createSuccessResult cfg env call tr = .error f) :
    execute cfg env call (.ok tr) false sigCatch =
      execCatch env call f sigCatch ∧
    (∀ e, execute cfg env call (.error e) false sigCatch =
      execCatch env call e sigCatch) ∧
    (sigCatch = true →
      ∃ c, execute cfg env call (.ok tr) false sigCatch =
        .ok (CompletedToolCall.cancelled c)) ∧
    (sigCatch = false →
      ∃ c, execute cfg env call (.ok tr) false sigCatch =
        .ok (CompletedToolCall.error c)) := by
  have htryEq : execTry cfg env call (.ok tr) false = .error f := by
    simp [execTry, Except.bind, herr, hfault, Except.map]
  have hexec : execute cfg env call (.ok tr) false sigCatch =
      execCatch env call f sigCatch := by
    simp only [execute, htool, hinv, htryEq]
  refine ⟨hexec, ?_, ?_, ?_⟩
  · intro e
    simp [execute, execTry, htool, hinv, Except.bind]
  · intro hs
    subst hs
    rw [hexec]
    simp [execCatch, createCancelledResult, htool, hinv, Except.map]
  · intro hs
    subst hs
    rw [hexec]
    simp [execCatch]

/-- An environment whose artifact store faults. -/
def badSaveEnv : Env :=
  { save := fun _ _ _ _ => .error (.jsError "disk full")
    convert := fun _ _ _ _ => .ok [ResponsePart.otherPart 0]
    now := 1000 }

/-- Witness for C10: a faulting artifact store on oversized shell output
still produces an error terminal call out of execute. -/
theorem success_construction_fault_caught_witness :
    ∃ c, execute sampleConfig badSaveEnv sampleCall (.ok bigToolResult)
      false false = .ok (CompletedToolCall.error c) :=
  (success_construction_fault_caught sampleConfig badSaveEnv sampleCall
    bigToolResult sampleTool sampleInvocation (.jsError "disk full") false
    rfl rfl rfl rfl).2.2.2 rfl

end ToolExec
